import Mathlib

/-!
Verification development for the MCP tool gateway.

This file gives a shallow embedding, in Lean 4, of the gateway's core:
the policy engine (`checkPolicy`, `getEffectivePolicy`, `checkArgAllowlist`),
the audit logger (`hashArgs`, `getResultBytes`, `auditLog` and its wrappers),
the invocation pipeline (`invokeTool`), the tool registry
(`registerTool`, `registerTools`, `lookupTool`), the filesystem path
confinement (`isPathAllowed`, `validatePath`), the HTTP domain confinement
(`isDomainAllowed`, `validateUrl`) and the read-only SQL verifier
(`validateReadOnlyQuery`).  Each definition is a direct translation of the
corresponding TypeScript function; JavaScript strings are modelled as Lean
strings with character-list operations (ASCII semantics), JSON values as the
`Json` inductive, machine integers as `Nat`, asynchronous handlers as pure
outcome-valued functions, and the external regular-expression engine and URL
parser as function parameters.  Theorems at the end settle the specification
claims against these definitions.
-/

namespace Gateway

/-! ## JavaScript string primitives (ASCII model) -/

/-- `String.prototype.startsWith`. -/
def strStartsWith (s p : String) : Bool := p.data.isPrefixOf s.data

/-- `String.prototype.endsWith`. -/
def strEndsWith (s p : String) : Bool := p.data.isSuffixOf s.data

/-- `String.prototype.slice(n)` for a non-negative `n`. -/
def strDrop (s : String) (n : Nat) : String := String.mk (s.data.drop n)

/-- `String.prototype.toLowerCase`, ASCII fragment. -/
def lowerStr (s : String) : String := String.mk (s.data.map Char.toLower)

/-- Whitespace class of the JavaScript `\s` regex (ASCII fragment). -/
def isJsWhite (c : Char) : Bool :=
  c.toNat = 32 || c.toNat = 9 || c.toNat = 10 || c.toNat = 13 || c.toNat = 11 || c.toNat = 12

/-- Word-character class of the JavaScript `\w` / `\b` regex. -/
def isWordChar (c : Char) : Bool := (c.isAlpha || c.isDigit) || c = '_'

/-- Substring scan: `s.includes(pat)` over character lists. -/
def containsSubL (pat : List Char) : List Char → Bool
  | [] => pat.isEmpty
  | c :: rest => pat.isPrefixOf (c :: rest) || containsSubL pat rest

/-- `String.prototype.includes`. -/
def containsSub (s pat : String) : Bool := containsSubL pat.data s.data

/-- `String.prototype.split(sep)` with a single-character separator. -/
def splitOnChar (sep : Char) : List Char → List (List Char)
  | [] => [[]]
  | c :: rest =>
    match splitOnChar sep rest with
    | [] => if c = sep then [[], []] else [[c]]
    | p :: ps => if c = sep then [] :: p :: ps else (c :: p) :: ps

/-- Join pieces back with a single-character separator. -/
def joinWith (sep : Char) : List (List Char) → List Char
  | [] => []
  | [p] => p
  | p :: q :: rest => p ++ sep :: joinWith sep (q :: rest)

/-! ## JSON value model

Arguments, results and allowlist entries are JSON values.  Numbers are
modelled as integers (every number appearing in the claims is integral). -/

inductive Json where
  | null : Json
  | bool (b : Bool) : Json
  | num (n : Int) : Json
  | str (s : String) : Json
  | arr (xs : List Json) : Json
  | obj (xs : List (String × Json)) : Json

mutual

/-- JavaScript strict equality `===` on JSON primitives, extended
structurally to arrays and objects. -/
def jsonBeq : Json → Json → Bool
  | Json.null, Json.null => true
  | Json.bool a, Json.bool b => a == b
  | Json.num a, Json.num b => a == b
  | Json.str a, Json.str b => a == b
  | Json.arr a, Json.arr b => jsonArrBeq a b
  | Json.obj a, Json.obj b => jsonObjBeq a b
  | _, _ => false

def jsonArrBeq : List Json → List Json → Bool
  | [], [] => true
  | a :: as_, b :: bs => jsonBeq a b && jsonArrBeq as_ bs
  | _, _ => false

def jsonObjBeq : List (String × Json) → List (String × Json) → Bool
  | [], [] => true
  | (ka, va) :: as_, (kb, vb) :: bs => ka == kb && jsonBeq va vb && jsonObjBeq as_ bs
  | _, _ => false

end

/-- JSON string escaping as performed by `JSON.stringify`. -/
def jsonEscapeChar (c : Char) : List Char :=
  if c = '"' then ['\\', '"']
  else if c = '\\' then ['\\', '\\']
  else if c.toNat = 10 then ['\\', 'n']
  else if c.toNat = 13 then ['\\', 'r']
  else if c.toNat = 9 then ['\\', 't']
  else if c.toNat = 8 then ['\\', 'b']
  else if c.toNat = 12 then ['\\', 'f']
  else if c.toNat < 32 then
    ['\\', 'u', '0', '0',
     Char.ofNat (if c.toNat / 16 < 10 then 48 + c.toNat / 16 else 87 + c.toNat / 16),
     Char.ofNat (if c.toNat % 16 < 10 then 48 + c.toNat % 16 else 87 + c.toNat % 16)]
  else [c]

def jsonEscape (s : String) : String :=
  String.mk (s.data.flatMap jsonEscapeChar)

mutual

/-- `JSON.stringify` (no spacing argument): members are serialized in
insertion order, `undefined` members are elided before this point by the
`Json` model, and `null` prints as `null`. -/
def stringifyJ : Json → String
  | Json.null => "null"
  | Json.bool b => if b then "true" else "false"
  | Json.num n => toString n
  | Json.str s => "\"" ++ jsonEscape s ++ "\""
  | Json.arr xs => "[" ++ stringifyArr xs ++ "]"
  | Json.obj xs => "\x7b" ++ stringifyObj xs ++ "\x7d"

def stringifyArr : List Json → String
  | [] => ""
  | [x] => stringifyJ x
  | x :: y :: rest => stringifyJ x ++ "," ++ stringifyArr (y :: rest)

def stringifyObj : List (String × Json) → String
  | [] => ""
  | [(k, v)] => "\"" ++ jsonEscape k ++ "\":" ++ stringifyJ v
  | (k, v) :: y :: rest =>
    "\"" ++ jsonEscape k ++ "\":" ++ stringifyJ v ++ "," ++ stringifyObj (y :: rest)

end

/-- UTF-8 encoding of a character list, byte values as `Nat < 256`. -/
def utf8Bytes : List Char → List Nat
  | [] => []
  | c :: rest =>
    let n := c.toNat
    (if n < 0x80 then [n]
     else if n < 0x800 then [0xc0 + n / 64, 0x80 + n % 64]
     else if n < 0x10000 then [0xe0 + n / 4096, 0x80 + n / 64 % 64, 0x80 + n % 64]
     else [0xf0 + n / 262144, 0x80 + n / 4096 % 64, 0x80 + n / 64 % 64, 0x80 + n % 64])
      ++ utf8Bytes rest

/-- `Buffer.byteLength(s, 'utf-8')`. -/
def utf8ByteLength (s : String) : Nat := (utf8Bytes s.data).length

/-! ## SHA-256

Modelled from the spec: the audit logger hashes with Node's
`crypto.createHash('sha256')`, an external collaborator; this is the standard
FIPS 180-4 SHA-256 over `Nat` words reduced modulo `2^32`. -/

def M32 : Nat := 4294967296

def rotr32 (x k : Nat) : Nat :=
  (Nat.shiftRight x k ||| Nat.shiftLeft x (32 - k)) % M32

def shaCh (x y z : Nat) : Nat := Nat.xor (Nat.land x y) (Nat.land (M32 - 1 - x) z)

def shaMaj (x y z : Nat) : Nat :=
  Nat.xor (Nat.xor (Nat.land x y) (Nat.land x z)) (Nat.land y z)

def bigSigma0 (x : Nat) : Nat := Nat.xor (Nat.xor (rotr32 x 2) (rotr32 x 13)) (rotr32 x 22)

def bigSigma1 (x : Nat) : Nat := Nat.xor (Nat.xor (rotr32 x 6) (rotr32 x 11)) (rotr32 x 25)

def smallSigma0 (x : Nat) : Nat :=
  Nat.xor (Nat.xor (rotr32 x 7) (rotr32 x 18)) (Nat.shiftRight x 3)

def smallSigma1 (x : Nat) : Nat :=
  Nat.xor (Nat.xor (rotr32 x 17) (rotr32 x 19)) (Nat.shiftRight x 10)

def shaK : List Nat :=
  [1116352408, 1899447441, 3049323471, 3921009573, 961987163,
   1508970993, 2453635748, 2870763221, 3624381080, 310598401,
   607225278, 1426881987, 1925078388, 2162078206, 2614888103,
   3248222580, 3835390401, 4022224774, 264347078, 604807628,
   770255983, 1249150122, 1555081692, 1996064986, 2554220882,
   2821834349, 2952996808, 3210313671, 3336571891, 3584528711,
   113926993, 338241895, 666307205, 773529912, 1294757372,
   1396182291, 1695183700, 1986661051, 2177026350, 2456956037,
   2730485921, 2820302411, 3259730800, 3345764771, 3516065817,
   3600352804, 4094571909, 275423344, 430227734, 506948616,
   659060556, 883997877, 958139571, 1322822218, 1537002063,
   1747873779, 1955562222, 2024104815, 2227730452, 2361852424,
   2428436474, 2756734187, 3204031479, 3329325298]

def shaInit : List Nat :=
  [1779033703, 3144134277, 1013904242, 2773480762,
   1359893119, 2600822924, 528734635, 1541459225]

def bytesToWords : List Nat → List Nat
  | b0 :: b1 :: b2 :: b3 :: rest => (((b0 * 256 + b1) * 256 + b2) * 256 + b3) :: bytesToWords rest
  | _ => []

/-- Message-schedule extension; the list is kept most-recent-first. -/
def extendSchedule : Nat → List Nat → List Nat
  | 0, rw => rw
  | n + 1, rw =>
    let w2 := rw.getD 1 0
    let w7 := rw.getD 6 0
    let w15 := rw.getD 14 0
    let w16 := rw.getD 15 0
    extendSchedule n (((smallSigma1 w2 + w7 + smallSigma0 w15 + w16) % M32) :: rw)

def shaRound (st : List Nat) (kw : Nat × Nat) : List Nat :=
  match st with
  | [a, b, c, d, e, f, g, h] =>
    let t1 := (h + bigSigma1 e + shaCh e f g + kw.1 + kw.2) % M32
    let t2 := (bigSigma0 a + shaMaj a b c) % M32
    [(t1 + t2) % M32, a, b, c, (d + t1) % M32, e, f, g]
  | other => other

def compressBlock (h : List Nat) (block : List Nat) : List Nat :=
  let w := (extendSchedule 48 (bytesToWords block).reverse).reverse
  let st := (w.zip shaK).foldl shaRound h
  (h.zip st).map (fun p => (p.1 + p.2) % M32)

/-- Split into 64-byte blocks; the fuel is the list length, which always
suffices because each step removes at least one element. -/
def chunk64 : Nat → List Nat → List (List Nat)
  | _, [] => []
  | 0, l => [l]
  | fuel + 1, l => l.take 64 :: chunk64 fuel (l.drop 64)

def padMessage (msg : List Nat) : List Nat :=
  let len := msg.length
  let bitLen := len * 8
  let zeros := (55 + 64 - len % 64) % 64
  msg ++ [0x80] ++ List.replicate zeros 0 ++
    [bitLen / 2 ^ 56 % 256, bitLen / 2 ^ 48 % 256, bitLen / 2 ^ 40 % 256, bitLen / 2 ^ 32 % 256,
     bitLen / 2 ^ 24 % 256, bitLen / 2 ^ 16 % 256, bitLen / 2 ^ 8 % 256, bitLen % 256]

def sha256Words (msg : List Nat) : List Nat :=
  let padded := padMessage msg
  (chunk64 padded.length padded).foldl compressBlock shaInit

def hexDigit (n : Nat) : Char :=
  Char.ofNat (if n < 10 then 48 + n else 87 + n)

def wordToHex (n : Nat) : List Char :=
  [hexDigit (n / 2 ^ 28 % 16), hexDigit (n / 2 ^ 24 % 16), hexDigit (n / 2 ^ 20 % 16),
   hexDigit (n / 2 ^ 16 % 16), hexDigit (n / 2 ^ 12 % 16), hexDigit (n / 2 ^ 8 % 16),
   hexDigit (n / 2 ^ 4 % 16), hexDigit (n % 16)]

/-- `createHash('sha256').update(s).digest('hex')`. -/
def sha256Hex (s : String) : String :=
  String.mk ((sha256Words (utf8Bytes s.data)).flatMap wordToHex)

/-! ## Audit logger (`src/core/audit.ts`)

Wall-clock reads (`Date.now`) and the random request id are passed in as
parameters; the stdout/file sinks are external collaborators, so an emitted
event is represented by returning it in a list (one `log` call that passes
the `enabled` guard contributes exactly one element). -/

inductive Decision where
  | allow : Decision
  | deny : Decision
  deriving DecidableEq, BEq

structure AuditEvent where
  timestamp : Nat
  request_id : String
  tool : String
  actor : String
  args_sha256 : String
  decision : Decision
  reason : String
  duration_ms : Nat
  result_bytes : Nat
  error_code : Option String
  deriving DecidableEq

structure AuditContext where
  requestId : String
  tool : String
  actor : String
  args : List (String × Json)
  startTime : Nat

/-- `createContext`: fresh id and captured start time are parameters. -/
def createContext (actor requestId : String) (startTime : Nat) (tool : String)
    (args : List (String × Json)) : AuditContext :=
  { requestId := requestId, tool := tool, actor := actor, args := args, startTime := startTime }

/-- `hashArgs`: SHA-256 of `JSON.stringify(args ?? {})`. -/
def hashArgs (args : Json) : String := sha256Hex (stringifyJ args)

/-- `getResultBytes`. -/
def getResultBytes : Option Json → Nat
  | none => 0
  | some Json.null => 0
  | some r => utf8ByteLength (stringifyJ r)

/-- `log`: builds the event; the `...(errorCode && { error_code: errorCode })`
spread adds the field only for a truthy (non-empty) code. -/
def auditLog (enabled : Bool) (ctx : AuditContext) (logTime : Nat) (decision : Decision)
    (reason : String) (result : Option Json) (errorCode : Option String) : List AuditEvent :=
  if !enabled then []
  else
    [{ timestamp := logTime
       request_id := ctx.requestId
       tool := ctx.tool
       actor := ctx.actor
       args_sha256 := hashArgs (Json.obj ctx.args)
       decision := decision
       reason := reason
       duration_ms := logTime - ctx.startTime
       result_bytes := getResultBytes result
       error_code := match errorCode with
         | some c => if c = "" then none else some c
         | none => none }]

/-- `logSuccess`. -/
def logSuccess (enabled : Bool) (ctx : AuditContext) (logTime : Nat) (result : Json) :
    List AuditEvent :=
  auditLog enabled ctx logTime Decision.allow "execution_success" (some result) none

/-- `logDenied`. -/
def logDenied (enabled : Bool) (ctx : AuditContext) (logTime : Nat) (reason : String) :
    List AuditEvent :=
  auditLog enabled ctx logTime Decision.deny reason none (some "POLICY_DENIED")

/-- `logError`. -/
def logError (enabled : Bool) (ctx : AuditContext) (logTime : Nat)
    (errorCode errorMessage : String) : List AuditEvent :=
  auditLog enabled ctx logTime Decision.allow ("error: " ++ errorMessage) none (some errorCode)

/-! ## Policy engine (`src/core/policy.ts`)

The JavaScript regular-expression engine used by `arg_allowlist` entries of
the form `regex:...` is an external collaborator and is passed in as the
matcher `rmatch : pattern → candidate → Bool`. -/

structure ToolPolicy where
  allow : Option Bool
  max_bytes : Option Nat
  timeout_ms : Option Nat
  arg_allowlist : Option (List (String × Json))

structure PolicyConfig where
  default_deny : Bool
  allow_tools : List String
  deny_tools : List String
  per_tool : List (String × ToolPolicy)
  global_timeout_ms : Nat
  global_max_bytes : Nat

structure EffectivePolicy where
  timeoutMs : Nat
  maxBytes : Nat
  argAllowlist : Option (List (String × Json))

structure PolicyDecision where
  allowed : Bool
  reason : String
  effectivePolicy : EffectivePolicy

/-- First-match association lookup, the model of `record[key]`. -/
def lookupKey {α : Type} (l : List (String × α)) (k : String) : Option α :=
  (l.find? (fun p => p.1 == k)).map (fun p => p.2)

/-- `getEffectivePolicy`. -/
def getEffectivePolicy (config : PolicyConfig) (tool : String) : EffectivePolicy :=
  let toolPolicy := (lookupKey config.per_tool tool).getD
    { allow := none, max_bytes := none, timeout_ms := none, arg_allowlist := none }
  { timeoutMs := toolPolicy.timeout_ms.getD config.global_timeout_ms
    maxBytes := toolPolicy.max_bytes.getD config.global_max_bytes
    argAllowlist := toolPolicy.arg_allowlist }

/-- `checkArgAllowlist`: iterates the provided args in insertion order and
stops at the first offending key. -/
def checkArgAllowlist (rmatch : String → String → Bool) :
    List (String × Json) → List (String × Json) → Bool × String
  | [], _ => (true, "Arguments match allowlist")
  | (key, value) :: rest, allowlist =>
    match lookupKey allowlist key with
    | none => (false, "Argument \"" ++ key ++ "\" is not in arg_allowlist")
    | some allowedValue =>
      if jsonBeq allowedValue (Json.bool true) then
        checkArgAllowlist rmatch rest allowlist
      else
        match allowedValue with
        | Json.arr vs =>
          if vs.any (fun v => jsonBeq v value) then checkArgAllowlist rmatch rest allowlist
          else (false, "Argument \"" ++ key ++ "\" value not in allowed values")
        | Json.str s =>
          if strStartsWith s "regex:" then
            let pattern := strDrop s 6
            match value with
            | Json.str v =>
              if rmatch pattern v then checkArgAllowlist rmatch rest allowlist
              else (false, "Argument \"" ++ key ++ "\" does not match pattern: " ++ pattern)
            | _ => (false, "Argument \"" ++ key ++ "\" does not match pattern: " ++ pattern)
          else if jsonBeq value (Json.str s) then checkArgAllowlist rmatch rest allowlist
          else (false, "Argument \"" ++ key ++ "\" must equal the allowlisted value")
        | _ =>
          if jsonBeq value allowedValue then checkArgAllowlist rmatch rest allowlist
          else (false, "Argument \"" ++ key ++ "\" must equal the allowlisted value")

/-- `checkPolicy`. -/
def checkPolicy (rmatch : String → String → Bool) (config : PolicyConfig) (tool : String)
    (args : List (String × Json)) : PolicyDecision :=
  let effectivePolicy := getEffectivePolicy config tool
  if config.deny_tools.contains tool then
    { allowed := false
      reason := "Tool \"" ++ tool ++ "\" is in deny_tools list"
      effectivePolicy := effectivePolicy }
  else
    let fallback : PolicyDecision :=
      if config.allow_tools.contains tool then
        { allowed := true
          reason := "Tool \"" ++ tool ++ "\" is in allow_tools list"
          effectivePolicy := effectivePolicy }
      else if config.default_deny then
        { allowed := false
          reason := "Tool \"" ++ tool ++ "\" not in allow_tools and default_deny is enabled"
          effectivePolicy := effectivePolicy }
      else
        { allowed := true
          reason := "Allowed by default (default_deny is false)"
          effectivePolicy := effectivePolicy }
    match lookupKey config.per_tool tool with
    | some toolPolicy =>
      if toolPolicy.allow = some false then
        { allowed := false
          reason := "Tool \"" ++ tool ++ "\" is explicitly denied in per_tool policy"
          effectivePolicy := effectivePolicy }
      else
        let argCheckFailure : Option String :=
          match toolPolicy.arg_allowlist with
          | some allowlist =>
            let argCheck := checkArgAllowlist rmatch args allowlist
            if argCheck.1 then none else some argCheck.2
          | none => none
        match argCheckFailure with
        | some r => { allowed := false, reason := r, effectivePolicy := effectivePolicy }
        | none =>
          if toolPolicy.allow = some true then
            { allowed := true, reason := "Allowed by per_tool policy"
              effectivePolicy := effectivePolicy }
          else fallback
    | none => fallback

/-- `enforceMaxBytes` size computation. -/
def resultByteSize (result : Json) : Nat := utf8ByteLength (stringifyJ result)

/-! ## Configuration schema (`src/core/config.ts`, `ToolPolicySchema`)

A per-tool policy record as written in a configuration file: every field may
be absent.  `toolPolicyParse` models the zod schema
`allow: z.boolean().default(false)` with positivity checks on the numeric
fields: in the parsed output `allow` is always an explicit boolean. -/

structure ToolPolicyInput where
  allow : Option Bool
  max_bytes : Option Nat
  timeout_ms : Option Nat
  arg_allowlist : Option (List (String × Json))

def toolPolicyParse (i : ToolPolicyInput) : Option ToolPolicy :=
  if (match i.max_bytes with | some n => decide (n = 0) | none => false) then none
  else if (match i.timeout_ms with | some n => decide (n = 0) | none => false) then none
  else some
    { allow := some (i.allow.getD false)
      max_bytes := i.max_bytes
      timeout_ms := i.timeout_ms
      arg_allowlist := i.arg_allowlist }

/-! ## Tool registry and invocation pipeline (`src/core/mcp.ts`)

A tool's zod `inputSchema.parse` is modelled by `validate` (coerced,
defaults-applied value or the issue string of the thrown `ZodError`), and the
bounded execution `executeWithTimeout(handler)` by `run`, whose outcome
ranges over exactly the errors the built-in connector handlers throw
(`SecurityError`, `ConnectorError`, `TimeoutError`, `MaxBytesExceededError`)
plus untyped failures. -/

inductive ExecOutcome where
  | ok (result : Json) : ExecOutcome
  | securityErr (msg : String) : ExecOutcome
  | connectorErr (msg : String) : ExecOutcome
  | timedOut (msg : String) : ExecOutcome
  | maxBytesErr (msg : String) : ExecOutcome
  | untypedErr (msg : String) : ExecOutcome

structure ToolDef where
  name : String
  description : String
  validate : List (String × Json) → Except String (List (String × Json))
  run : List (String × Json) → ExecOutcome

/-- `this.tools.get(name)` over the insertion-ordered registry. -/
def lookupTool (registry : List ToolDef) (name : String) : Option ToolDef :=
  registry.find? (fun t => t.name == name)

/-- `registerTool`: throws on a duplicate name, otherwise appends. -/
def registerTool (registry : List ToolDef) (t : ToolDef) : Except String (List ToolDef) :=
  if (lookupTool registry t.name).isSome then
    Except.error ("Tool \"" ++ t.name ++ "\" is already registered")
  else
    Except.ok (registry ++ [t])

/-- `registerTools`: a plain loop over `registerTool`; the registry mutated
so far is kept when a registration throws. -/
def registerTools (registry : List ToolDef) : List ToolDef → List ToolDef × Option String
  | [] => (registry, none)
  | t :: rest =>
    match registerTool registry t with
    | Except.error e => (registry, some e)
    | Except.ok registry2 => registerTools registry2 rest

/-- The `ToolResult` returned to the caller. -/
structure ToolResult where
  success : Bool
  result : Option Json
  errorCode : Option String
  errorMessage : Option String
  requestId : String

/-- Steps 4-6 of `invokeTool`: bounded execution outcome, `enforceMaxBytes`,
and the audit call of the reached branch (`logSuccess` on success, the
`catch` block's `logError` otherwise). -/
def runExecPhase (enabled : Bool) (ctx : AuditContext) (logTime : Nat) (maxBytes : Nat) :
    ExecOutcome → ToolResult × List AuditEvent
  | ExecOutcome.ok result =>
    let size := resultByteSize result
    if size > maxBytes then
      let msg := "Response exceeded max bytes: " ++ toString size ++ " > " ++ toString maxBytes
      ({ success := false, result := none, errorCode := some "MAX_BYTES_EXCEEDED"
         errorMessage := some msg, requestId := ctx.requestId },
       logError enabled ctx logTime "MAX_BYTES_EXCEEDED" msg)
    else
      ({ success := true, result := some result, errorCode := none
         errorMessage := none, requestId := ctx.requestId },
       logSuccess enabled ctx logTime result)
  | ExecOutcome.securityErr m =>
    ({ success := false, result := none, errorCode := some "SECURITY_ERROR"
       errorMessage := some m, requestId := ctx.requestId },
     logError enabled ctx logTime "SECURITY_ERROR" m)
  | ExecOutcome.connectorErr m =>
    ({ success := false, result := none, errorCode := some "CONNECTOR_ERROR"
       errorMessage := some m, requestId := ctx.requestId },
     logError enabled ctx logTime "CONNECTOR_ERROR" m)
  | ExecOutcome.timedOut m =>
    ({ success := false, result := none, errorCode := some "TIMEOUT"
       errorMessage := some m, requestId := ctx.requestId },
     logError enabled ctx logTime "TIMEOUT" m)
  | ExecOutcome.maxBytesErr m =>
    ({ success := false, result := none, errorCode := some "MAX_BYTES_EXCEEDED"
       errorMessage := some m, requestId := ctx.requestId },
     logError enabled ctx logTime "MAX_BYTES_EXCEEDED" m)
  | ExecOutcome.untypedErr m =>
    ({ success := false, result := none, errorCode := some "INTERNAL_ERROR"
       errorMessage := some m, requestId := ctx.requestId },
     logError enabled ctx logTime "INTERNAL_ERROR" m)

/-- `invokeTool`: create context, tool lookup, schema validation, policy
enforcement (the source passes the caller's `args`, not `validation.data`,
to `this.policy.enforce`), bounded execution of the handler on the parsed
value, size check, audit. -/
def invokeTool (rmatch : String → String → Bool) (registry : List ToolDef)
    (policyCfg : PolicyConfig) (auditEnabled : Bool) (actor requestId : String)
    (startTime logTime : Nat) (toolName : String) (args : List (String × Json)) :
    ToolResult × List AuditEvent :=
  let ctx := createContext actor requestId startTime toolName args
  match lookupTool registry toolName with
  | none =>
    let msg := "Tool \"" ++ toolName ++ "\" not found"
    ({ success := false, result := none, errorCode := some "TOOL_NOT_FOUND"
       errorMessage := some msg, requestId := ctx.requestId },
     logDenied auditEnabled ctx logTime msg)
  | some tool =>
    match tool.validate args with
    | Except.error e =>
      ({ success := false, result := none, errorCode := some "VALIDATION_ERROR"
         errorMessage := some e, requestId := ctx.requestId },
       logDenied auditEnabled ctx logTime ("Validation failed: " ++ e))
    | Except.ok parsed =>
      let decision := checkPolicy rmatch policyCfg toolName args
      if decision.allowed then
        runExecPhase auditEnabled ctx logTime decision.effectivePolicy.maxBytes (tool.run parsed)
      else
        let msg := "Policy denied: " ++ decision.reason
        ({ success := false, result := none, errorCode := some "POLICY_DENIED"
           errorMessage := some msg, requestId := ctx.requestId },
         logDenied auditEnabled ctx logTime msg)

/-! ## Filesystem connector (`src/connectors/filesystem.ts`)

Node's `resolve`/`normalize` for POSIX paths are modelled by `canonPath`,
parameterised by the process working directory; symbolic links are outside
the model (the source applies no link resolution either). -/

/-- Collapse `.`/empty segments and apply `..` to an absolute segment list
(stack kept reversed). -/
def normSegs : List String → List String → List String
  | acc, [] => acc.reverse
  | acc, seg :: rest =>
    if seg = "" || seg = "." then normSegs acc rest
    else if seg = ".." then normSegs (acc.drop 1) rest
    else normSegs (seg :: acc) rest

/-- `normalize(resolve(p))` for a POSIX path: absolute paths are normalized
in place, relative paths are joined to the working directory first. -/
def canonPath (cwd p : String) : String :=
  let abs := if strStartsWith p "/" then p else cwd ++ "/" ++ p
  let segs := normSegs [] ((splitOnChar '/' abs.data).map String.mk)
  "/" ++ String.intercalate "/" segs

/-- A gateway error as seen by the harness: its taxonomy code and message. -/
structure GatewayErr where
  code : String
  message : String
  deriving DecidableEq

/-- `isPathAllowed`. -/
def isPathAllowed (cwd : String) (targetPath : String)
    (allowedPaths deniedPaths : List String) : Bool :=
  let normalizedTarget := canonPath cwd targetPath
  if deniedPaths.any (fun denied => strStartsWith normalizedTarget (canonPath cwd denied)) then
    false
  else if allowedPaths.length = 0 then
    false
  else
    allowedPaths.any (fun allowed => strStartsWith normalizedTarget (canonPath cwd allowed))

/-- `validatePath`. -/
def validatePath (cwd : String) (path : String) (allowedPaths deniedPaths : List String) :
    Except GatewayErr String :=
  let normalizedPath := canonPath cwd path
  if containsSub path ".." &&
      !(isPathAllowed cwd normalizedPath allowedPaths deniedPaths) then
    Except.error { code := "SECURITY_ERROR"
                   message := "Path traversal attempt detected: " ++ path }
  else if !(isPathAllowed cwd normalizedPath allowedPaths deniedPaths) then
    Except.error { code := "SECURITY_ERROR"
                   message := "Path not in allowed paths: " ++ path }
  else
    Except.ok normalizedPath

/-- Modelled from the spec: the segment-boundary descendant relation of
section 4.5 ("equal to or a descendant of", where `/allow/foo` is not a
descendant of `/all`); string implementations must append a separator
before the prefix test. -/
def specIsDescendant (p a : String) : Bool :=
  p == a || strStartsWith p (a ++ "/")

/-! ## HTTP fetch connector (`src/connectors/httpFetch.ts`)

The WHATWG URL parser (`new URL`) is an external collaborator, passed in as
`parse`; `none` models the constructor throwing. -/

structure UrlParts where
  protocol : String
  hostname : String

structure HttpFetchConfig where
  allowed_domains : List String
  denied_domains : List String
  max_response_bytes : Nat
  timeout_ms : Nat

/-- One `denied_domains` entry test inside `isDomainAllowed`:
exact match or dot-suffix against the literal entry text. -/
def deniedDomainMatch (hostname denied : String) : Bool :=
  let normalizedDenied := lowerStr denied
  hostname == normalizedDenied || strEndsWith hostname ("." ++ normalizedDenied)

/-- One `allowed_domains` entry test inside `isDomainAllowed`: exact or
dot-suffix match, plus the `*.`-wildcard handling. -/
def allowedDomainMatch (hostname allowed : String) : Bool :=
  let normalizedAllowed := lowerStr allowed
  (hostname == normalizedAllowed || strEndsWith hostname ("." ++ normalizedAllowed)) ||
  (strStartsWith normalizedAllowed "*." &&
    (let baseDomain := strDrop normalizedAllowed 2
     hostname == baseDomain || strEndsWith hostname ("." ++ baseDomain)))

/-- `isDomainAllowed`. -/
def isDomainAllowed (parse : String → Option UrlParts) (url : String)
    (allowedDomains deniedDomains : List String) : Bool :=
  match parse url with
  | none => false
  | some parsed =>
    let hostname := lowerStr parsed.hostname
    if deniedDomains.any (fun denied => deniedDomainMatch hostname denied) then false
    else if allowedDomains.length = 0 then false
    else allowedDomains.any (fun allowed => allowedDomainMatch hostname allowed)

/-- The `blockedPatterns` dotted-quad regexes of `validateUrl`. -/
def blockedPatternMatch (hostname : String) : Bool :=
  strStartsWith hostname "10." ||
  ((List.range 16).any (fun k => strStartsWith hostname ("172." ++ toString (16 + k) ++ "."))) ||
  strStartsWith hostname "192.168." ||
  strStartsWith hostname "169.254."

/-- `validateUrl`. -/
def validateUrl (parse : String → Option UrlParts) (url : String) (config : HttpFetchConfig) :
    Except GatewayErr UrlParts :=
  match parse url with
  | none => Except.error { code := "SECURITY_ERROR", message := "Invalid URL: " ++ url }
  | some parsed =>
    if !(["http:", "https:"].contains parsed.protocol) then
      Except.error { code := "SECURITY_ERROR"
                     message := "Invalid protocol: " ++ parsed.protocol ++
                       ". Only http and https are allowed." }
    else
      let hostname := lowerStr parsed.hostname
      if ["localhost", "127.0.0.1", "0.0.0.0", "::1"].contains hostname then
        Except.error { code := "SECURITY_ERROR"
                       message := "Access to " ++ hostname ++ " is blocked for security reasons" }
      else if blockedPatternMatch hostname then
        Except.error { code := "SECURITY_ERROR"
                       message := "Access to internal IP ranges is blocked: " ++ hostname }
      else if !(isDomainAllowed parse url config.allowed_domains config.denied_domains) then
        Except.error { code := "SECURITY_ERROR"
                       message := "Domain not in allowed list: " ++ hostname }
      else
        Except.ok parsed

/-! ## PostgreSQL read-only connector (`src/connectors/postgresReadOnly.ts`) -/

/-- The `--.*$` per-line regex: truncate a (newline-free) line at its first
`--`. -/
def dropFromDashDash : List Char → List Char
  | [] => []
  | '-' :: '-' :: _ => []
  | c :: rest => c :: dropFromDashDash rest

/-- The global multi-line replace of the single-line-comment regex (double
dash to end of line) by the empty string: every line loses its suffix from
the first `--`; newlines stay. -/
def stripLineComments (l : List Char) : List Char :=
  joinWith '\n' ((splitOnChar '\n' l).map dropFromDashDash)

/-- Scan for the star-slash closer of a block comment, returning what
follows it. -/
def findClose : List Char → Option (List Char)
  | [] => none
  | '*' :: '/' :: rest => some rest
  | _ :: rest => findClose rest

/-- The global replace of the lazy block-comment regex (slash-star up to the
nearest star-slash) by the empty string, with explicit fuel (the list
length, always sufficient).  An opener with no later closer is left in
place, matching the regex, which then cannot match anywhere in the
remainder either. -/
def stripBlockGo : Nat → List Char → List Char
  | _, [] => []
  | 0, l => l
  | fuel + 1, l =>
    match l with
    | '/' :: '*' :: rest =>
      (match findClose rest with
       | some rest2 => stripBlockGo fuel rest2
       | none => l)
    | c :: rest => c :: stripBlockGo fuel rest
    | [] => []

def stripBlockComments (l : List Char) : List Char := stripBlockGo l.length l

/-- `.replace(/\s+/g, ' ')` as a one-pass state machine: the flag records
whether the previous character was whitespace. -/
def collapseWsGo : Bool → List Char → List Char
  | _, [] => []
  | prevWhite, c :: rest =>
    if isJsWhite c then
      if prevWhite then collapseWsGo true rest
      else ' ' :: collapseWsGo true rest
    else c :: collapseWsGo false rest

def collapseWs (l : List Char) : List Char := collapseWsGo false l

/-- `String.prototype.trim` (ASCII whitespace). -/
def trimWs (l : List Char) : List Char :=
  ((l.dropWhile isJsWhite).reverse.dropWhile isJsWhite).reverse

/-- The full normalization pipeline at the top of `validateReadOnlyQuery`:
strip comments, collapse whitespace, trim, uppercase. -/
def normalizeSql (sql : String) : List Char :=
  (trimWs (collapseWs (stripBlockComments (stripLineComments sql.data)))).map Char.toUpper

def BLOCKED_KEYWORDS : List String :=
  ["INSERT", "UPDATE", "DELETE", "DROP", "ALTER", "CREATE", "TRUNCATE", "GRANT",
   "REVOKE", "EXECUTE", "CALL", "COPY", "LOAD", "SET", "LOCK", "UNLOCK"]

def DANGEROUS_FUNCTIONS : List String :=
  ["PG_READ_FILE", "PG_WRITE_FILE", "PG_FILE_WRITE", "LO_IMPORT", "LO_EXPORT", "COPY"]

/-- Case-insensitive prefix test (ASCII), the head step of a
`new RegExp(kw, 'i')` literal match. -/
def ciPrefix : List Char → List Char → Bool
  | [], _ => true
  | _ :: _, [] => false
  | a :: as_, b :: bs => a.toUpper == b.toUpper && ciPrefix as_ bs

/-- Word-boundary test on the character after a match. -/
def boundaryAfter : List Char → Bool
  | [] => true
  | d :: _ => !isWordChar d

/-- Scan every position of `s` for a `\b kw \b` match, carrying the previous
character for the left boundary. -/
def wwScan (kw : List Char) : Option Char → List Char → Bool
  | _, [] => false
  | prev, c :: rest =>
    ((match prev with
      | none => true
      | some p => !isWordChar p) &&
     ciPrefix kw (c :: rest) && boundaryAfter ((c :: rest).drop kw.length)) ||
    wwScan kw (some c) rest

/-- `new RegExp('\\b' + keyword + '\\b', 'i').test(s)` for an alphabetic
keyword. -/
def wholeWordOccurs (kw : String) (s : List Char) : Bool := wwScan kw.data none s

/-- The multi-statement guard of `validateReadOnlyQuery`: when the
normalized SQL contains a semicolon, more than one segment may not remain
non-empty after trimming. -/
def multiStatementViolation (normalizedSql : List Char) : Bool :=
  if containsSubL [';'] normalizedSql then
    decide (((splitOnChar ';' normalizedSql).filter
        (fun p => 0 < (trimWs p).length)).length > 1)
  else false

/-- `validateReadOnlyQuery`: `none` means accepted, `some msg` models the
thrown `SecurityError`. -/
def validateReadOnlyQuery (sql : String) : Option String :=
  let normalizedSql := normalizeSql sql
  if multiStatementViolation normalizedSql then
    some "Multiple statements not allowed. Only single SELECT queries are permitted."
  else
    match BLOCKED_KEYWORDS.find? (fun kw => wholeWordOccurs kw normalizedSql) with
    | some kw =>
      some ("SQL keyword \"" ++ kw ++ "\" is not allowed. Only SELECT queries are permitted.")
    | none =>
      let queryStart := String.mk (normalizedSql.takeWhile (fun c => !isJsWhite c))
      if !(["SELECT", "WITH", "EXPLAIN"].contains queryStart) then
        some ("Query must start with SELECT, WITH, or EXPLAIN. Got: " ++ queryStart)
      else
        match DANGEROUS_FUNCTIONS.find? (fun f => containsSubL f.data normalizedSql) with
        | some f => some ("Function \"" ++ f ++ "\" is not allowed for security reasons.")
        | none => none

/-- The taxonomy code with which a guard rejected, if it did. -/
def errCode {α : Type} : Except GatewayErr α → Option String
  | Except.error e => some e.code
  | Except.ok _ => none

/-! ## Shared concrete fixtures for the claim evaluations -/

/-- A regex matcher that never matches; the allowlists below use no
`regex:` entries, so any matcher gives the same results. -/
def noRegex : String → String → Bool := fun _ _ => false

/-- A tool whose schema applies a default for the `encoding` field, as the
zod schema of `fs.readFile` does. -/
def fsTool : ToolDef :=
  { name := "fs.readFile"
    description := "Read the contents of a file."
    validate := fun args => Except.ok (args ++ [("encoding", Json.str "utf-8")])
    run := fun _ => ExecOutcome.ok (Json.str "data") }

/-- A per-tool policy that allows `fs.readFile` but allowlists only the
`path` argument key. -/
def fsOnlyPathConfig : PolicyConfig :=
  { default_deny := true
    allow_tools := []
    deny_tools := []
    per_tool := [("fs.readFile",
      { allow := some true, max_bytes := none, timeout_ms := none
        arg_allowlist := some [("path", Json.bool true)] })]
    global_timeout_ms := 30000
    global_max_bytes := 10485760 }

/-- Modelled from the spec: the section 4.2 decision order, stopping at the
first determining step — deny_tools; then the per-tool record (explicit
allow = false, then a violated arg_allowlist, then explicit allow = true);
then allow_tools; then default_deny; otherwise allow. -/
def specPolicyAllowed (rmatch : String → String → Bool) (cfg : PolicyConfig)
    (tool : String) (args : List (String × Json)) : Bool :=
  if cfg.deny_tools.contains tool then false
  else
    match lookupKey cfg.per_tool tool with
    | some p =>
      if p.allow = some false then false
      else if (match p.arg_allowlist with
               | some allowlist => !(checkArgAllowlist rmatch args allowlist).1
               | none => false) then false
      else if p.allow = some true then true
      else if cfg.allow_tools.contains tool then true
      else if cfg.default_deny then false
      else true
    | none =>
      if cfg.allow_tools.contains tool then true
      else if cfg.default_deny then false
      else true

/-- The engine-level per-tool record of the C5 witness: only `timeout_ms`
is set, `allow` left unset. -/
def timeoutOnlyPolicy : ToolPolicy :=
  { allow := none, max_bytes := none, timeout_ms := some 5000, arg_allowlist := none }

/-- The same record as written in a configuration file. -/
def timeoutOnlyInput : ToolPolicyInput :=
  { allow := none, max_bytes := none, timeout_ms := some 5000, arg_allowlist := none }

/-- The record after `ToolPolicySchema` parsing: `allow` defaulted to
`false`. -/
def timeoutOnlyParsed : ToolPolicy :=
  { allow := some false, max_bytes := none, timeout_ms := some 5000, arg_allowlist := none }

/-- Engine-level configuration of the C5 witness. -/
def dbEngineConfig : PolicyConfig :=
  { default_deny := true, allow_tools := ["db.query"], deny_tools := []
    per_tool := [("db.query", timeoutOnlyPolicy)]
    global_timeout_ms := 30000, global_max_bytes := 10485760 }

/-- Schema-parsed configuration of the C5 witness. -/
def dbParsedConfig : PolicyConfig :=
  { default_deny := true, allow_tools := ["db.query"], deny_tools := []
    per_tool := [("db.query", timeoutOnlyParsed)]
    global_timeout_ms := 30000, global_max_bytes := 10485760 }

/-- The URL-parser stand-in of the C8 witness: parsing always fails. -/
def noParse : String → Option UrlParts := fun _ => none

/-- The decision/error_code discipline claimed for one audit event against
the returned result. -/
def auditResultConsistent (r : ToolResult) (e : AuditEvent) : Bool :=
  ((e.decision == Decision.deny)
      == (r.errorCode == some "TOOL_NOT_FOUND" || r.errorCode == some "VALIDATION_ERROR"
          || r.errorCode == some "POLICY_DENIED"))
  && (((e.decision == Decision.allow) && (e.error_code == none)) == r.success)
  && (if (e.decision == Decision.allow) && !r.success then e.error_code == r.errorCode
      else true)

/-- First tool of the C9 witness. -/
def toolAlpha : ToolDef :=
  { name := "demo.alpha", description := "first"
    validate := fun a => Except.ok a, run := fun _ => ExecOutcome.ok Json.null }

/-- A second tool re-using the name of `toolAlpha`. -/
def toolAlphaDup : ToolDef :=
  { name := "demo.alpha", description := "duplicate"
    validate := fun a => Except.ok a, run := fun _ => ExecOutcome.ok Json.null }

/-- A tool after the duplicate in the C9 witness batch. -/
def toolBeta : ToolDef :=
  { name := "demo.beta", description := "second"
    validate := fun a => Except.ok a, run := fun _ => ExecOutcome.ok Json.null }

/-- `createDefaultPolicy()`. -/
def createDefaultPolicy : PolicyConfig :=
  { default_deny := true, allow_tools := [], deny_tools := [], per_tool := []
    global_timeout_ms := 30000, global_max_bytes := 10485760 }

/-! ## Theorems settling the claims -/

/-- FIPS 180-4 test vector, checking the hash model. -/
theorem sha256Hex_abc_vector :
    sha256Hex "abc" = "ba7816bf8f01cfea414140de5dae2223b00361a396177a9cb410ff61f20015ad" := by
  decide

/-! ## Claim theorems -/

/-- C1: path "descendance" in `isPathAllowed` is a bare textual prefix test,
not a segment-boundary test.  With `allowed_paths = ["/all"]` and no denied
paths, the canonical candidate `/allow/foo` — which is not equal to `/all`
and does not extend it at a separator boundary — is accepted by
`isPathAllowed`, and `validatePath` consequently lets `fs.readFile` /
`fs.listDir` proceed on it, contradicting the segment-boundary rule and the
confinement invariant. -/
theorem isPathAllowed_accepts_textual_prefix_outside_allowed_root :
    isPathAllowed "/" "/allow/foo" ["/all"] [] = true
      ∧ specIsDescendant "/allow/foo" "/all" = false
      ∧ errCode (validatePath "/" "/allow/foo" ["/all"] []) = none := by
  decide

/-- C4 counterexample: two argument maps that are equal as maps (one is a
permutation of the other) but whose audit hashes differ, because `hashArgs`
feeds SHA-256 the insertion-ordered `JSON.stringify` output, with no key
sorting. -/
theorem hashArgs_differs_on_reordered_equal_args :
    ([("a", Json.num 1), ("b", Json.num 2)].Perm
        [("b", Json.num 2), ("a", Json.num 1)])
      ∧ hashArgs (Json.obj [("a", Json.num 1), ("b", Json.num 2)])
          ≠ hashArgs (Json.obj [("b", Json.num 2), ("a", Json.num 1)]) :=
  ⟨List.Perm.swap ("b", Json.num 2) ("a", Json.num 1) [], by decide⟩

/-- C5 counterexample: a configuration-file per-tool record that sets only
`timeout_ms` parses (via `ToolPolicySchema`) to `allow = false`, and the
engine then denies the tool even though it is listed in `allow_tools`. -/
theorem perTool_without_allow_denies_allowlisted_tool :
    toolPolicyParse
        { allow := none, max_bytes := none, timeout_ms := some 5000, arg_allowlist := none }
      = some { allow := some false, max_bytes := none, timeout_ms := some 5000
               arg_allowlist := none }
      ∧ (checkPolicy noRegex
          { default_deny := true
            allow_tools := ["db.query"]
            deny_tools := []
            per_tool := [("db.query",
              { allow := some false, max_bytes := none, timeout_ms := some 5000
                arg_allowlist := none })]
            global_timeout_ms := 30000
            global_max_bytes := 10485760 }
          "db.query" []).allowed = false :=
  ⟨rfl, rfl⟩

/-- C6 counterexample: validation turns the raw `path`-only arguments into a
parsed value with the defaulted `encoding` key; the policy arg-allowlist
rejects that parsed value, yet the invocation succeeds — so the policy step
was evaluated on the raw arguments, not on the parsed value. -/
theorem invokeTool_policy_checked_on_raw_args :
    fsTool.validate [("path", Json.str "/tmp/x")]
        = Except.ok [("path", Json.str "/tmp/x"), ("encoding", Json.str "utf-8")]
      ∧ (checkPolicy noRegex fsOnlyPathConfig "fs.readFile"
          [("path", Json.str "/tmp/x"), ("encoding", Json.str "utf-8")]).allowed = false
      ∧ (invokeTool noRegex [fsTool] fsOnlyPathConfig true "local-user" "req-1" 0 1
          "fs.readFile" [("path", Json.str "/tmp/x")]).1.success = true := by
  refine ⟨rfl, rfl, ?_⟩
  decide

/-- C2: for every tool, argument map and policy configuration, the verdict
of `checkPolicy` coincides with the spec's fixed decision order
(`specPolicyAllowed`), and membership in `deny_tools` always denies — in
particular deny wins over `allow_tools` and over `per_tool.allow = true`. -/
theorem checkPolicy_follows_spec_order (rmatch : String → String → Bool)
    (cfg : PolicyConfig) (tool : String) (args : List (String × Json)) :
    (checkPolicy rmatch cfg tool args).allowed = specPolicyAllowed rmatch cfg tool args
      ∧ (cfg.deny_tools.contains tool = true →
          (checkPolicy rmatch cfg tool args).allowed = false) := by
  have main : (checkPolicy rmatch cfg tool args).allowed
      = specPolicyAllowed rmatch cfg tool args := by
    unfold checkPolicy specPolicyAllowed
    cases hd : cfg.deny_tools.contains tool
    · cases hpt : lookupKey cfg.per_tool tool with
      | none =>
        simp only [hd, Bool.false_eq_true, if_false, hpt]
        split_ifs <;> rfl
      | some p =>
        simp only [hd, Bool.false_eq_true, if_false, hpt]
        by_cases haf : p.allow = some false
        · simp [haf]
        · simp only [haf, if_false, if_neg haf]
          cases hal : p.arg_allowlist with
          | none =>
            simp only [hal]
            by_cases hat : p.allow = some true
            · simp [hat]
            · simp only [hat, if_false, if_neg hat, Bool.not_false, Bool.true_and]
              split_ifs <;> simp_all
          | some allowlist =>
            cases hchk : (checkArgAllowlist rmatch args allowlist).1
            · simp [hal, hchk]
            · simp only [hal, hchk, Bool.not_true, if_true]
              by_cases hat : p.allow = some true
              · simp [hat]
              · simp only [hat, if_neg hat, Bool.not_true, if_false]
                split_ifs <;> simp_all
    · simp [hd]
  refine ⟨main, fun hd => ?_⟩
  have hd2 : tool ∈ cfg.deny_tools := by simpa using hd
  unfold checkPolicy
  simp [hd2]

/-- Witness for the C2 theorem: for a tool listed in both `deny_tools` and
`allow_tools`, deny wins. -/
theorem checkPolicy_follows_spec_order_witness :
    (checkPolicy noRegex
      { default_deny := false, allow_tools := ["web.fetch"], deny_tools := ["web.fetch"]
        per_tool := [], global_timeout_ms := 30000, global_max_bytes := 10485760 }
      "web.fetch" []).allowed = false :=
  (checkPolicy_follows_spec_order noRegex
    { default_deny := false, allow_tools := ["web.fetch"], deny_tools := ["web.fetch"]
      per_tool := [], global_timeout_ms := 30000, global_max_bytes := 10485760 }
    "web.fetch" []).2 (by decide)

/-- C5 amended: at the engine level `per_tool.allow` is tristate — with a
per-tool record whose `allow` is unset and whose arg_allowlist (if any)
passes, the decision falls through to the allow_tools / default_deny steps;
but `ToolPolicySchema` defaults `allow` to `false`, so a per-tool record
coming through the configuration schema always carries an explicit boolean,
and a config entry setting only `timeout_ms` / `max_bytes` parses to
`allow = false` and is denied even when the tool is in `allow_tools`. -/
theorem perTool_allow_unset_falls_through (rmatch : String → String → Bool)
    (args : List (String × Json)) (t : String)
    (cfg1 : PolicyConfig) (p : ToolPolicy) (cfg2 : PolicyConfig)
    (i : ToolPolicyInput) (q : ToolPolicy)
    (hA1 : lookupKey cfg1.per_tool t = some p)
    (hA2 : p.allow = none)
    (hA3 : (match p.arg_allowlist with
            | some allowlist => (checkArgAllowlist rmatch args allowlist).1
            | none => true) = true)
    (hA4 : cfg1.deny_tools.contains t = false)
    (hB1 : lookupKey cfg2.per_tool t = some q)
    (hB2 : toolPolicyParse i = some q)
    (hB3 : i.allow = none) :
    (checkPolicy rmatch cfg1 t args).allowed
        = (cfg1.allow_tools.contains t || !cfg1.default_deny)
      ∧ (checkPolicy rmatch cfg2 t args).allowed = false := by
  constructor
  · unfold checkPolicy
    simp only [hA4, Bool.false_eq_true, if_false, hA1]
    have hnf : ¬ p.allow = some false := by simp [hA2]
    have hnt : ¬ p.allow = some true := by simp [hA2]
    simp only [if_neg hnf]
    cases hal : p.arg_allowlist with
    | none =>
      simp only [hal, if_neg hnt]
      split_ifs <;> simp_all
    | some allowlist =>
      rw [hal] at hA3
      simp only at hA3
      simp only [hal, hA3, if_true, if_neg hnt]
      split_ifs <;> simp_all
  · have hq : q.allow = some false := by
      unfold toolPolicyParse at hB2
      split at hB2
      · exact absurd hB2 (by simp)
      · split at hB2
        · exact absurd hB2 (by simp)
        · have := Option.some.inj hB2
          rw [← this, hB3]
          rfl
    unfold checkPolicy
    cases hd : cfg2.deny_tools.contains t
    · simp only [hd, Bool.false_eq_true, if_false, hB1]
      simp [hq]
    · simp [hd]

/-- Witness for the C5 amended theorem: the engine falls through and allows
the allow_tools-listed tool when `allow` is genuinely unset, while the
schema-parsed version of the same configuration record denies it. -/
theorem perTool_allow_unset_falls_through_witness :
    (checkPolicy noRegex dbEngineConfig "db.query" []).allowed
        = (dbEngineConfig.allow_tools.contains "db.query" || !dbEngineConfig.default_deny)
      ∧ (checkPolicy noRegex dbParsedConfig "db.query" []).allowed = false :=
  perTool_allow_unset_falls_through noRegex [] "db.query" dbEngineConfig timeoutOnlyPolicy
    dbParsedConfig timeoutOnlyInput timeoutOnlyParsed rfl rfl rfl rfl rfl rfl rfl

/-- C8: with an empty `allowed_paths` list, `validatePath` — the guard every
`fs.readFile` / `fs.listDir` handler runs before touching the filesystem —
rejects every path with `SECURITY_ERROR`; and with an empty
`allowed_domains` list, `validateUrl` — the guard the `web.fetch` handler
runs before sending the request — rejects every URL with `SECURITY_ERROR`,
whatever the URL parser returns. -/
theorem empty_allowlists_always_security_error (cwd path : String)
    (deniedPaths : List String) (parse : String → Option UrlParts) (url : String)
    (config : HttpFetchConfig) (hempty : config.allowed_domains = []) :
    errCode (validatePath cwd path [] deniedPaths) = some "SECURITY_ERROR"
      ∧ errCode (validateUrl parse url config) = some "SECURITY_ERROR" := by
  constructor
  · have hpa : ∀ x, isPathAllowed cwd x [] deniedPaths = false := by
      intro x
      unfold isPathAllowed
      split_ifs <;> simp
    simp only [validatePath, hpa]
    split_ifs <;> first | rfl | simp_all
  · have hda : isDomainAllowed parse url config.allowed_domains config.denied_domains
        = false := by
      unfold isDomainAllowed
      cases hp : parse url with
      | none => rfl
      | some u =>
        rw [hempty]
        split_ifs <;> simp
    simp only [validateUrl, hda]
    cases hp : parse url with
    | none => rfl
    | some u =>
      simp only [hp]
      split_ifs <;> first | rfl | simp_all

/-- Witness for the C8 theorem at a concrete path, URL and configuration. -/
theorem empty_allowlists_always_security_error_witness :
    errCode (validatePath "/" "/etc/passwd" [] []) = some "SECURITY_ERROR"
      ∧ errCode (validateUrl noParse "http://example.com/"
          { allowed_domains := [], denied_domains := [], max_response_bytes := 5242880
            timeout_ms := 10000 }) = some "SECURITY_ERROR" :=
  empty_allowlists_always_security_error "/" "/etc/passwd" [] noParse "http://example.com/"
    { allowed_domains := [], denied_domains := [], max_response_bytes := 5242880
      timeout_ms := 10000 } rfl

/-- C10: wildcard entries act only on the allow side of domain matching.
For any hostname that contains no asterisk (every real hostname), a
`denied_domains` entry of the form `*.base` matches nothing — its test is
exact equality or dot-suffix against the literal entry text — while an
`allowed_domains` entry `*.base` matches exactly `base` itself and every
dot-separated subdomain of `base`. -/
theorem wildcard_matches_only_on_allow_side (h base : String)
    (hstar : '*' ∉ h.data) :
    deniedDomainMatch h ("*." ++ base) = false
      ∧ allowedDomainMatch h ("*." ++ base)
          = (h == lowerStr base || strEndsWith h ("." ++ lowerStr base)) := by
  have hdata : ("*." ++ base).data = '*' :: '.' :: base.data := by
    rw [String.data_append]
    rfl
  have hlow : lowerStr ("*." ++ base) = "*." ++ lowerStr base := by
    apply String.ext
    show ("*." ++ base).data.map Char.toLower = ("*." ++ lowerStr base).data
    rw [hdata, String.data_append]
    rfl
  have hne : (h == ("*." ++ lowerStr base)) = false := by
    apply beq_eq_false_iff_ne.mpr
    intro hcontra
    apply hstar
    rw [hcontra, String.data_append]
    exact List.mem_append_left _ (by decide)
  have hns : strEndsWith h ("." ++ ("*." ++ lowerStr base)) = false := by
    apply Bool.eq_false_iff.mpr
    intro hcontra
    apply hstar
    have hsuf := List.isSuffixOf_iff_suffix.mp hcontra
    apply hsuf.subset
    rw [String.data_append, String.data_append]
    refine List.mem_append_right _ (List.mem_append_left _ ?_)
    decide
  have hdrop : strDrop ("*." ++ lowerStr base) 2 = lowerStr base := by
    apply String.ext
    show (("*." ++ lowerStr base).data.drop 2) = (lowerStr base).data
    rw [String.data_append]
    rfl
  have hsw : strStartsWith ("*." ++ lowerStr base) "*." = true := by
    unfold strStartsWith
    rw [String.data_append]
    show List.isPrefixOf ('*' :: '.' :: []) ('*' :: '.' :: (lowerStr base).data) = true
    simp [List.isPrefixOf]
  constructor
  · simp only [deniedDomainMatch, hlow, hne, hns]
    rfl
  · simp only [allowedDomainMatch, hlow, hne, hns, hdrop, hsw]
    simp

/-- Witness for the C10 theorem: `*.example.com` as a deny entry matches
nothing, while as an allow entry it matches `api.example.com`. -/
theorem wildcard_matches_only_on_allow_side_witness :
    deniedDomainMatch "api.example.com" ("*." ++ "example.com") = false
      ∧ allowedDomainMatch "api.example.com" ("*." ++ "example.com")
          = ("api.example.com" == lowerStr "example.com"
              || strEndsWith "api.example.com" ("." ++ lowerStr "example.com")) :=
  wildcard_matches_only_on_allow_side "api.example.com" "example.com" (by decide)

/-- If the separator occurs nowhere in the list, splitting is the identity
(one piece). -/
theorem splitOnChar_of_not_contains (c : Char) (l : List Char)
    (h : containsSubL [c] l = false) : splitOnChar c l = [l] := by
  induction l with
  | nil => rfl
  | cons d rest ih =>
    unfold containsSubL at h
    simp only [Bool.or_eq_false_iff] at h
    obtain ⟨h1, h2⟩ := h
    have hne : ¬ d = c := by
      intro he
      subst he
      simp [List.isPrefixOf] at h1
    unfold splitOnChar
    rw [ih h2]
    simp [hne]

/-- C7: every SQL string the read-only verifier accepts, after the
verifier's own normalization, (1) splits on `;` into at most one segment
that is non-empty after trimming, (2) contains no blocklisted keyword as a
whole word, and (3) has SELECT, WITH or EXPLAIN as its first
whitespace-delimited token. -/
theorem validateReadOnlyQuery_accepted_props (sql : String)
    (hacc : validateReadOnlyQuery sql = none) :
    (((splitOnChar ';' (normalizeSql sql)).filter
        (fun p => 0 < (trimWs p).length)).length ≤ 1)
      ∧ (BLOCKED_KEYWORDS.all (fun kw => !wholeWordOccurs kw (normalizeSql sql)) = true)
      ∧ (["SELECT", "WITH", "EXPLAIN"].contains
          (String.mk ((normalizeSql sql).takeWhile (fun c => !isJsWhite c))) = true) := by
  simp only [validateReadOnlyQuery] at hacc
  cases hm : multiStatementViolation (normalizeSql sql) with
  | true => simp [hm] at hacc
  | false =>
    simp only [hm, Bool.false_eq_true, if_false] at hacc
    cases hk : BLOCKED_KEYWORDS.find? (fun kw => wholeWordOccurs kw (normalizeSql sql)) with
    | some kw => simp [hk] at hacc
    | none =>
      simp only [hk] at hacc
      refine ⟨?_, ?_, ?_⟩
      · unfold multiStatementViolation at hm
        cases hsemi : containsSubL [';'] (normalizeSql sql) with
        | true =>
          rw [hsemi] at hm
          simp only [if_true, decide_eq_false_iff_not, Nat.not_lt] at hm
          omega
        | false =>
          rw [splitOnChar_of_not_contains ';' _ hsemi]
          exact le_trans (List.length_filter_le _ _) (by simp)
      · rw [List.all_eq_true]
        intro kw hkw
        have := List.find?_eq_none.mp hk kw hkw
        simp_all
      · by_cases hqs : (["SELECT", "WITH", "EXPLAIN"].contains
            (String.mk ((normalizeSql sql).takeWhile (fun c => !isJsWhite c)))) = true
        · exact hqs
        · rw [Bool.not_eq_true] at hqs
          rw [hqs] at hacc
          simp at hacc

/-- Witness for the C7 theorem at the accepted query `SELECT 1`. -/
theorem validateReadOnlyQuery_accepted_props_witness :
    (((splitOnChar ';' (normalizeSql "SELECT 1")).filter
        (fun p => 0 < (trimWs p).length)).length ≤ 1)
      ∧ (BLOCKED_KEYWORDS.all
          (fun kw => !wholeWordOccurs kw (normalizeSql "SELECT 1")) = true)
      ∧ (["SELECT", "WITH", "EXPLAIN"].contains
          (String.mk ((normalizeSql "SELECT 1").takeWhile (fun c => !isJsWhite c))) = true) :=
  validateReadOnlyQuery_accepted_props "SELECT 1" (by decide)

/-- C3: with the audit logger enabled, every `invokeTool` call emits exactly
one audit event, and that event satisfies the decision/error_code
discipline: `decision = deny` exactly when the result code is one of
TOOL_NOT_FOUND / VALIDATION_ERROR / POLICY_DENIED (the tool-lookup,
schema-validation and policy phases); every execution-phase outcome records
`decision = allow` and carries the result's error code; and
`decision = allow` with no `error_code` holds if and only if the invocation
returned success. -/
theorem invokeTool_exactly_one_consistent_audit_event
    (rmatch : String → String → Bool) (registry : List ToolDef) (policyCfg : PolicyConfig)
    (actor requestId : String) (startTime logTime : Nat) (toolName : String)
    (args : List (String × Json)) :
    ((invokeTool rmatch registry policyCfg true actor requestId startTime logTime
        toolName args).2.length = 1)
      ∧ ((invokeTool rmatch registry policyCfg true actor requestId startTime logTime
          toolName args).2.all
            (auditResultConsistent
              (invokeTool rmatch registry policyCfg true actor requestId startTime logTime
                toolName args).1) = true) := by
  unfold invokeTool
  cases hl : lookupTool registry toolName with
  | none =>
    simp [logDenied, auditLog, auditResultConsistent] <;> decide
  | some tool =>
    cases hv : tool.validate args with
    | error e =>
      simp [hv, logDenied, auditLog, auditResultConsistent] <;> decide
    | ok v =>
      by_cases hd : (checkPolicy rmatch policyCfg toolName args).allowed = true
      · simp only [hv, hd, if_true]
        cases ho : tool.run v with
        | ok r =>
          by_cases hsz : resultByteSize r
              > (checkPolicy rmatch policyCfg toolName args).effectivePolicy.maxBytes
          · simp [runExecPhase, hsz, logError, auditLog, auditResultConsistent] <;> decide
          · simp [runExecPhase, hsz, logSuccess, auditLog, auditResultConsistent] <;> decide
        | securityErr m =>
          simp [runExecPhase, logError, auditLog, auditResultConsistent] <;> decide
        | connectorErr m =>
          simp [runExecPhase, logError, auditLog, auditResultConsistent] <;> decide
        | timedOut m =>
          simp [runExecPhase, logError, auditLog, auditResultConsistent] <;> decide
        | maxBytesErr m =>
          simp [runExecPhase, logError, auditLog, auditResultConsistent] <;> decide
        | untypedErr m =>
          simp [runExecPhase, logError, auditLog, auditResultConsistent] <;> decide
      · simp only [hv, hd, Bool.false_eq_true, if_false]
        simp [logDenied, auditLog, auditResultConsistent] <;> decide

/-- Every audit event of an invocation hashes exactly the raw argument
map. -/
theorem invokeTool_event_args_sha (rmatch : String → String → Bool) (reg : List ToolDef)
    (cfg : PolicyConfig) (actor rid : String) (st lt : Nat) (n : String)
    (args : List (String × Json)) :
    (invokeTool rmatch reg cfg true actor rid st lt n args).2.all
      (fun e => e.args_sha256 == hashArgs (Json.obj args)) = true := by
  unfold invokeTool
  cases hl : lookupTool reg n with
  | none => simp [logDenied, auditLog, createContext]
  | some tool =>
    cases hv : tool.validate args with
    | error e => simp [hv, logDenied, auditLog, createContext]
    | ok v =>
      by_cases hd : (checkPolicy rmatch cfg n args).allowed = true
      · simp only [hv, hd, if_true]
        cases ho : tool.run v with
        | ok r =>
          by_cases hsz : resultByteSize r
              > (checkPolicy rmatch cfg n args).effectivePolicy.maxBytes
          · simp [runExecPhase, hsz, logError, auditLog, createContext]
          · simp [runExecPhase, hsz, logSuccess, auditLog, createContext]
        | securityErr m => simp [runExecPhase, logError, auditLog, createContext]
        | connectorErr m => simp [runExecPhase, logError, auditLog, createContext]
        | timedOut m => simp [runExecPhase, logError, auditLog, createContext]
        | maxBytesErr m => simp [runExecPhase, logError, auditLog, createContext]
        | untypedErr m => simp [runExecPhase, logError, auditLog, createContext]
      · simp only [hv, hd, Bool.false_eq_true, if_false]
        simp [logDenied, auditLog, createContext]

/-- C4 amended: `args_sha256` is SHA-256 of the `JSON.stringify` encoding of
the raw argument map in its given key order (`undefined` elided, `null`
kept); it is a deterministic function of that ordered map alone — two
invocations with the same ordered arguments carry identical hashes whatever
the tool, actor, policy, registry, request id or wall-clock — but keys are
not sorted, so maps equal only up to key order can hash differently. -/
theorem argsSha_function_of_ordered_args_only
    (rmatch1 rmatch2 : String → String → Bool) (reg1 reg2 : List ToolDef)
    (cfg1 cfg2 : PolicyConfig) (actor1 actor2 rid1 rid2 : String)
    (st1 st2 lt1 lt2 : Nat) (n1 n2 : String) (args : List (String × Json)) :
    (invokeTool rmatch1 reg1 cfg1 true actor1 rid1 st1 lt1 n1 args).2.all
        (fun e => e.args_sha256 == hashArgs (Json.obj args)) = true
      ∧ (invokeTool rmatch2 reg2 cfg2 true actor2 rid2 st2 lt2 n2 args).2.all
        (fun e => e.args_sha256 == hashArgs (Json.obj args)) = true :=
  ⟨invokeTool_event_args_sha rmatch1 reg1 cfg1 actor1 rid1 st1 lt1 n1 args,
   invokeTool_event_args_sha rmatch2 reg2 cfg2 actor2 rid2 st2 lt2 n2 args⟩

/-- A first-match lookup in an appended registry resolves on the left part
when it succeeds there. -/
theorem lookupTool_append_left (a b : List ToolDef) (n : String) (t : ToolDef)
    (h : lookupTool a n = some t) : lookupTool (a ++ b) n = some t := by
  unfold lookupTool at h ⊢
  rw [List.find?_append, h]
  rfl

/-- A first-match lookup in an appended registry falls through to the right
part when the left part misses. -/
theorem lookupTool_append_of_none (a b : List ToolDef) (n : String)
    (h : lookupTool a n = none) : lookupTool (a ++ b) n = lookupTool b n := by
  unfold lookupTool at h ⊢
  rw [List.find?_append, h]
  rfl

/-- `checkPolicy` returns the unconditionally computed effective envelope on
every branch. -/
theorem checkPolicy_effectivePolicy (rmatch : String → String → Bool)
    (cfg : PolicyConfig) (tool : String) (args : List (String × Json)) :
    (checkPolicy rmatch cfg tool args).effectivePolicy = getEffectivePolicy cfg tool := by
  unfold checkPolicy
  repeat' first | rfl | split | dsimp only

/-- C6 amended: once the tool is found and validation succeeds with parsed
value `v`, the rest of the invocation is exactly: the policy decision taken
on the RAW caller arguments, and — when allowed — the execution phase run on
the handler applied to the PARSED value `v`.  The parsed value replaces the
raw arguments for the handler, but not for the policy step. -/
theorem invokeTool_policy_on_raw_handler_on_parsed
    (rmatch : String → String → Bool) (reg : List ToolDef) (cfg : PolicyConfig)
    (actor requestId : String) (startTime logTime : Nat)
    (toolName : String) (args v : List (String × Json)) (tool : ToolDef)
    (h1 : lookupTool reg toolName = some tool)
    (h2 : tool.validate args = Except.ok v) :
    invokeTool rmatch reg cfg true actor requestId startTime logTime toolName args
      = (if (checkPolicy rmatch cfg toolName args).allowed then
          runExecPhase true (createContext actor requestId startTime toolName args) logTime
            (getEffectivePolicy cfg toolName).maxBytes (tool.run v)
        else
          ({ success := false, result := none, errorCode := some "POLICY_DENIED"
             errorMessage := some ("Policy denied: "
               ++ (checkPolicy rmatch cfg toolName args).reason)
             requestId := requestId },
           logDenied true (createContext actor requestId startTime toolName args) logTime
             ("Policy denied: " ++ (checkPolicy rmatch cfg toolName args).reason))) := by
  unfold invokeTool
  simp only [h1, h2]
  rw [checkPolicy_effectivePolicy]
  rfl

/-- Witness for the C6 amended theorem at the concrete defaulting tool and
key-allowlisting configuration. -/
theorem invokeTool_policy_on_raw_handler_on_parsed_witness :
    invokeTool noRegex [fsTool] fsOnlyPathConfig true "local-user" "req-1" 0 1
        "fs.readFile" [("path", Json.str "/tmp/x")]
      = (if (checkPolicy noRegex fsOnlyPathConfig "fs.readFile"
              [("path", Json.str "/tmp/x")]).allowed then
          runExecPhase true
            (createContext "local-user" "req-1" 0 "fs.readFile" [("path", Json.str "/tmp/x")]) 1
            (getEffectivePolicy fsOnlyPathConfig "fs.readFile").maxBytes
            (fsTool.run [("path", Json.str "/tmp/x"), ("encoding", Json.str "utf-8")])
        else
          ({ success := false, result := none, errorCode := some "POLICY_DENIED"
             errorMessage := some ("Policy denied: "
               ++ (checkPolicy noRegex fsOnlyPathConfig "fs.readFile"
                     [("path", Json.str "/tmp/x")]).reason)
             requestId := "req-1" },
           logDenied true
             (createContext "local-user" "req-1" 0 "fs.readFile" [("path", Json.str "/tmp/x")]) 1
             ("Policy denied: " ++ (checkPolicy noRegex fsOnlyPathConfig "fs.readFile"
                 [("path", Json.str "/tmp/x")]).reason))) :=
  invokeTool_policy_on_raw_handler_on_parsed noRegex [fsTool] fsOnlyPathConfig
    "local-user" "req-1" 0 1 "fs.readFile" [("path", Json.str "/tmp/x")]
    [("path", Json.str "/tmp/x"), ("encoding", Json.str "utf-8")] fsTool rfl rfl

/-- Lookup misses a singleton registry with a different name. -/
theorem lookupTool_singleton_ne (w : ToolDef) (n : String) (h : ¬ w.name = n) :
    lookupTool [w] n = none := by
  unfold lookupTool
  have hb : (w.name == n) = false := beq_eq_false_iff_ne.mpr h
  simp [List.find?, hb]

/-- Registering a fresh, duplicate-free batch succeeds and appends. -/
theorem registerTools_ok_front (pre : List ToolDef) (reg rest : List ToolDef)
    (hfresh : pre.all (fun w => (lookupTool reg w.name).isNone) = true)
    (hnodup : (pre.map ToolDef.name).Nodup) :
    registerTools reg (pre ++ rest) = registerTools (reg ++ pre) rest := by
  induction pre generalizing reg with
  | nil => simp
  | cons w pre' ih =>
    rw [List.cons_append]
    have hwn : lookupTool reg w.name = none := by
      have := List.all_eq_true.mp hfresh w (by simp)
      simpa [Option.isNone_iff_eq_none] using this
    have hws : (lookupTool reg w.name).isSome = false := by
      rw [hwn]
      rfl
    show (match registerTool reg w with
          | Except.error e => (reg, some e)
          | Except.ok reg2 => registerTools reg2 (pre' ++ rest))
        = registerTools (reg ++ w :: pre') rest
    unfold registerTool
    simp only [hws, Bool.false_eq_true, if_false]
    have hnodup' : (pre'.map ToolDef.name).Nodup := by
      rw [List.map_cons, List.nodup_cons] at hnodup
      exact hnodup.2
    have hwnot : w.name ∉ pre'.map ToolDef.name := by
      rw [List.map_cons, List.nodup_cons] at hnodup
      exact hnodup.1
    have hfresh' : pre'.all (fun v => (lookupTool (reg ++ [w]) v.name).isNone) = true := by
      rw [List.all_eq_true]
      intro v hv
      have hvreg : lookupTool reg v.name = none := by
        have := List.all_eq_true.mp hfresh v (by simp [hv])
        simpa [Option.isNone_iff_eq_none] using this
      have hne : ¬ w.name = v.name := by
        intro he
        exact hwnot (he ▸ List.mem_map_of_mem ToolDef.name hv)
      rw [lookupTool_append_of_none reg [w] v.name hvreg,
        lookupTool_singleton_ne w v.name hne]
      rfl
    rw [ih (reg ++ [w]) hfresh' hnodup']
    congr 1
    simp

/-- A freshly appended tool is found by its own name. -/
theorem lookupTool_pre_self (reg pre : List ToolDef) (u : ToolDef)
    (hfresh : pre.all (fun w => (lookupTool reg w.name).isNone) = true)
    (hnodup : (pre.map ToolDef.name).Nodup) (hu : u ∈ pre) :
    lookupTool (reg ++ pre) u.name = some u := by
  have hureg : lookupTool reg u.name = none := by
    have := List.all_eq_true.mp hfresh u hu
    simpa [Option.isNone_iff_eq_none] using this
  rw [lookupTool_append_of_none reg pre u.name hureg]
  clear hfresh hureg
  induction pre with
  | nil => cases hu
  | cons w pre' ih =>
    rw [List.map_cons, List.nodup_cons] at hnodup
    rcases List.mem_cons.mp hu with he | ht
    · subst he
      unfold lookupTool
      simp [List.find?]
    · have hne : (w.name == u.name) = false := by
        apply beq_eq_false_iff_ne.mpr
        intro hc
        exact hnodup.1 (hc ▸ List.mem_map_of_mem ToolDef.name ht)
      unfold lookupTool at ih ⊢
      rw [List.find?_cons]
      simp only [hne]
      exact ih hnodup.2 ht

/-- An invocation of a registered tool never reports TOOL_NOT_FOUND. -/
theorem invokeTool_found_code_ne_toolNotFound (rmatch : String → String → Bool)
    (reg : List ToolDef) (cfg : PolicyConfig) (en : Bool) (actor rid : String)
    (st lt : Nat) (n : String) (args : List (String × Json)) (t : ToolDef)
    (h : lookupTool reg n = some t) :
    (invokeTool rmatch reg cfg en actor rid st lt n args).1.errorCode
      ≠ some "TOOL_NOT_FOUND" := by
  unfold invokeTool
  simp only [h]
  cases hv : t.validate args with
  | error e => simp
  | ok v =>
    by_cases hd : (checkPolicy rmatch cfg n args).allowed = true
    · simp only [hd, if_true]
      cases ho : t.run v with
      | ok r =>
        by_cases hsz : resultByteSize r
            > (checkPolicy rmatch cfg n args).effectivePolicy.maxBytes
        · simp [runExecPhase, hsz]
        · simp [runExecPhase, hsz]
      | securityErr m => simp [runExecPhase]
      | connectorErr m => simp [runExecPhase]
      | timedOut m => simp [runExecPhase]
      | maxBytesErr m => simp [runExecPhase]
      | untypedErr m => simp [runExecPhase]
    · simp [hd]

/-- C9: bulk registration is not atomic.  If `registerTools` is called on a
list whose earlier names are fresh and distinct and whose later tool `tdup`
collides with an already-taken name, the call reports the duplicate error,
but the registry keeps every earlier tool: each one is still looked up by
name and an invocation of it does not fail with TOOL_NOT_FOUND. -/
theorem registerTools_not_atomic
    (reg pre post : List ToolDef) (tdup u : ToolDef)
    (rmatch : String → String → Bool) (cfg : PolicyConfig) (actor requestId : String)
    (startTime logTime : Nat) (args : List (String × Json))
    (hfresh : pre.all (fun w => (lookupTool reg w.name).isNone) = true)
    (hnodup : (pre.map ToolDef.name).Nodup)
    (hdup : (lookupTool (reg ++ pre) tdup.name).isSome = true)
    (hu : u ∈ pre) :
    (registerTools reg (pre ++ tdup :: post)).2.isSome = true
      ∧ (registerTools reg (pre ++ tdup :: post)).1 = reg ++ pre
      ∧ lookupTool (registerTools reg (pre ++ tdup :: post)).1 u.name = some u
      ∧ (invokeTool rmatch (registerTools reg (pre ++ tdup :: post)).1 cfg true actor
          requestId startTime logTime u.name args).1.errorCode ≠ some "TOOL_NOT_FOUND" := by
  have hrt : registerTools reg (pre ++ tdup :: post)
      = (reg ++ pre, some ("Tool \"" ++ tdup.name ++ "\" is already registered")) := by
    rw [registerTools_ok_front pre reg _ hfresh hnodup]
    show (match registerTool (reg ++ pre) tdup with
          | Except.error e => (reg ++ pre, some e)
          | Except.ok reg2 => registerTools reg2 post) = _
    unfold registerTool
    simp only [hdup, if_true]
  have hlu : lookupTool (reg ++ pre) u.name = some u :=
    lookupTool_pre_self reg pre u hfresh hnodup hu
  rw [hrt]
  exact ⟨rfl, rfl, hlu,
    invokeTool_found_code_ne_toolNotFound rmatch (reg ++ pre) cfg true actor requestId
      startTime logTime u.name args u hlu⟩

/-- Witness for the C9 theorem: registering `[alpha, alpha-duplicate, beta]`
into an empty registry fails on the duplicate but keeps `alpha`
registered and invokable. -/
theorem registerTools_not_atomic_witness :
    (registerTools [] ([toolAlpha] ++ toolAlphaDup :: [toolBeta])).2.isSome = true
      ∧ (registerTools [] ([toolAlpha] ++ toolAlphaDup :: [toolBeta])).1 = [] ++ [toolAlpha]
      ∧ lookupTool (registerTools [] ([toolAlpha] ++ toolAlphaDup :: [toolBeta])).1
          toolAlpha.name = some toolAlpha
      ∧ (invokeTool noRegex (registerTools [] ([toolAlpha] ++ toolAlphaDup :: [toolBeta])).1
          createDefaultPolicy true "local-user" "req-2" 0 1 toolAlpha.name
          []).1.errorCode ≠ some "TOOL_NOT_FOUND" :=
  registerTools_not_atomic [] [toolAlpha] [toolBeta] toolAlphaDup toolAlpha noRegex
    createDefaultPolicy "local-user" "req-2" 0 1 [] rfl (by simp) rfl
    (List.mem_singleton.mpr rfl)

end Gateway
